import Mathlib

/-!
Shallow embedding of the four `send-keys` utilities of this repository
(`src/scripts/send-keys.c`, `send-keys-raw.c`, `send-keys-no-enter.c`,
`send-keys-pty.c`).

Each program opens a pty slave device and pushes bytes into its input
queue one at a time with `ioctl(fd, TIOCSTI, &byte)`.  We model one
invocation as a pure function from the kernel's responses (`Env`) and
the argument vector to a trace of observable events (`Ev`) plus the
process exit status (`Result`).

Modelling conventions:
* `argv` is the C argument vector, each argument a list of bytes
  (a NUL-free C string); `argv.length` is `argc`.
* The kernel's answer to the `k`-th `ioctl(TIOCSTI)` call of the run
  (counting from 0, framing calls included) is `Env.accept k`:
  `true` means the byte was accepted (`ioctl` returned ≥ 0).
* `Env.openOk` is whether `open(argv[1], O_RDWR)` succeeds, and
  `Env.attrOk` whether `tcgetattr` succeeds, in which case the local
  mode flags read are `Env.attrFlags`.  In `send-keys-pty.c` the
  `struct termios` is a local variable that is never initialised, so
  when `tcgetattr` fails the flags the program later reads are an
  indeterminate (stale) value: we model that value as `Env.junkFlags`.
* `perror`/`fprintf(stderr, ...)` become `Ev.diag` events, `close(fd)`
  becomes `Ev.closeFd`, `usleep(n)` becomes `Ev.sleepUs n`.
-/

/-- One observable action of a run. -/
inductive Ev : Type where
  /-- An `ioctl(fd, TIOCSTI, &b)` call carrying byte `b`; the flag
  records whether the kernel accepted it. -/
  | inject : Nat → Bool → Ev
  /-- A `usleep(n)` call. -/
  | sleepUs : Nat → Ev
  /-- A diagnostic line on stderr (`perror` / `fprintf(stderr, ...)`). -/
  | diag : String → Ev
  /-- The `close(fd)` call releasing the device handle. -/
  | closeFd : Ev
  deriving DecidableEq, Repr

/-- Outcome of one invocation: the event trace and the exit status. -/
structure Result : Type where
  events : List Ev
  exit : Nat
  deriving DecidableEq, Repr

/-- The kernel's behaviour towards one invocation. -/
structure Env : Type where
  /-- Does `open(argv[1], O_RDWR)` succeed? -/
  openOk : Bool
  /-- Does `tcgetattr(fd, &tios)` succeed? -/
  attrOk : Bool
  /-- The `c_lflag` value delivered by a successful `tcgetattr`. -/
  attrFlags : Nat
  /-- The stale value found in the uninitialised `c_lflag` field when
  `tcgetattr` fails without writing the struct. -/
  junkFlags : Nat
  /-- Whether the `k`-th `ioctl(TIOCSTI)` call of the run is accepted. -/
  accept : Nat → Bool

/-- `ICANON` bit of `c_lflag` (value 0x2 on Linux). -/
def ICANON : Nat := 2

/-- The bytes of the C string literal `"enter"`. -/
def enterTok : List Nat := [101, 110, 116, 101, 114]

/-- `perror("Failed to open terminal")`. -/
def openFailMsg : String := "Failed to open terminal"

/-- `perror("Failed to send character")`. -/
def injFailMsg : String := "Failed to send character"

/-- Diagnostic for a rejected CR framing byte in the dual-byte variants. -/
def crFailMsg : String := "Failed to send CR"

/-- Diagnostic for a rejected LF framing byte in the dual-byte variants. -/
def lfFailMsg : String := "Failed to send LF"

/-- `perror("Failed to send Enter key")` in `send-keys-raw.c`. -/
def rawCrFailMsg : String := "Failed to send Enter key"

/-- `perror("tcgetattr failed")` in `send-keys-pty.c`. -/
def attrFailMsg : String := "tcgetattr failed"

/-- Usage line of the fixed-argument variants. -/
def usageMsg : String := "Usage: %s /dev/pts/X \"text to send\""

/-- Usage line of `send-keys-no-enter.c`. -/
def usageNoEnterMsg : String := "Usage: %s /dev/pts/X \"text to send\" [enter|none]"

/-- The payload loop of `send-keys.c`, `send-keys-raw.c` and
`send-keys-no-enter.c`:
`for (i...) if (ioctl(fd, TIOCSTI, &text[i]) < 0) { perror(...); close; return 1 }`.
Returns the events of the loop and, if no byte was rejected, the number
of `ioctl` calls made so far (`none` means the run aborts; the caller
appends the `close` event and exits 1). -/
def injectLoop (acc : Nat → Bool) (k : Nat) (bs : List Nat) :
    List Ev × Option Nat :=
  match bs with
  | [] => ([], some k)
  | b :: rest =>
    if acc k then
      let r := injectLoop acc (k + 1) rest
      (Ev.inject b true :: r.1, r.2)
    else
      ([Ev.inject b false, Ev.diag injFailMsg], none)

/-- The payload loop of `send-keys-pty.c`: same as `injectLoop` but with
`usleep(1000)` executed after every accepted byte (the `usleep` is
inside the loop body, after the error check). -/
def injectLoopDelay (acc : Nat → Bool) (k : Nat) (bs : List Nat) :
    List Ev × Option Nat :=
  match bs with
  | [] => ([], some k)
  | b :: rest =>
    if acc k then
      let r := injectLoopDelay acc (k + 1) rest
      (Ev.inject b true :: Ev.sleepUs 1000 :: r.1, r.2)
    else
      ([Ev.inject b false, Ev.diag injFailMsg], none)

/-- `src/scripts/send-keys.c`: requires `argc == 3`; injects the payload
byte by byte, then always attempts CR (0x0D) and LF (0x0A); a rejected
CR or LF only produces a diagnostic; exits 0 after `close`. -/
def sendKeys (env : Env) (argv : List (List Nat)) : Result :=
  if argv.length ≠ 3 then ⟨[Ev.diag usageMsg], 1⟩
  else if env.openOk then
    let text := argv.getD 2 []
    match injectLoop env.accept 0 text with
    | (evs, none) => ⟨evs ++ [Ev.closeFd], 1⟩
    | (evs, some k) =>
      let crOk := env.accept k
      let lfOk := env.accept (k + 1)
      ⟨evs ++ [Ev.inject 13 crOk] ++ (if crOk then [] else [Ev.diag crFailMsg])
           ++ [Ev.inject 10 lfOk] ++ (if lfOk then [] else [Ev.diag lfFailMsg])
           ++ [Ev.closeFd], 0⟩
  else ⟨[Ev.diag openFailMsg], 1⟩

/-- `src/scripts/send-keys-raw.c`: requires `argc == 3`; calls
`tcgetattr(fd, &old_tio)` but never reads its result or the snapshot;
injects the payload, then a single CR (byte 13) whose rejection IS
fatal (diagnostic, `close`, exit 1); otherwise `close` and exit 0. -/
def sendKeysRaw (env : Env) (argv : List (List Nat)) : Result :=
  if argv.length ≠ 3 then ⟨[Ev.diag usageMsg], 1⟩
  else if env.openOk then
    let text := argv.getD 2 []
    match injectLoop env.accept 0 text with
    | (evs, none) => ⟨evs ++ [Ev.closeFd], 1⟩
    | (evs, some k) =>
      if env.accept k then ⟨evs ++ [Ev.inject 13 true, Ev.closeFd], 0⟩
      else ⟨evs ++ [Ev.inject 13 false, Ev.diag rawCrFailMsg, Ev.closeFd], 1⟩
  else ⟨[Ev.diag openFailMsg], 1⟩

/-- `src/scripts/send-keys-no-enter.c`: accepts `argc == 3` or
`argc == 4`; injects the payload; then, only when `argc == 4` and
`strcmp(argv[3], "enter") == 0`, attempts CR and LF (rejections
non-fatal); any other fourth argument (including `"none"`) skips the
framing entirely; `close` and exit 0. -/
def sendKeysNoEnter (env : Env) (argv : List (List Nat)) : Result :=
  if argv.length < 3 ∨ 4 < argv.length then ⟨[Ev.diag usageNoEnterMsg], 1⟩
  else if env.openOk then
    let text := argv.getD 2 []
    match injectLoop env.accept 0 text with
    | (evs, none) => ⟨evs ++ [Ev.closeFd], 1⟩
    | (evs, some k) =>
      if argv.length = 4 ∧ argv.getD 3 [] = enterTok then
        let crOk := env.accept k
        let lfOk := env.accept (k + 1)
        ⟨evs ++ [Ev.inject 13 crOk] ++ (if crOk then [] else [Ev.diag crFailMsg])
             ++ [Ev.inject 10 lfOk] ++ (if lfOk then [] else [Ev.diag lfFailMsg])
             ++ [Ev.closeFd], 0⟩
      else ⟨evs ++ [Ev.closeFd], 0⟩
  else ⟨[Ev.diag openFailMsg], 1⟩

/-- `src/scripts/send-keys-pty.c`: requires `argc == 3`; `tcgetattr`
failure is non-fatal (diagnostic only) but leaves the local `struct
termios` uninitialised, so the `c_lflag` consulted later is then the
stale `Env.junkFlags`; the payload loop sleeps 1 ms after each accepted
byte; CR is attempted (rejection non-fatal), then `usleep(10000)`, then
LF is attempted exactly when the consulted flags have `ICANON` set
(rejection non-fatal); `close` and exit 0. -/
def sendKeysPty (env : Env) (argv : List (List Nat)) : Result :=
  if argv.length ≠ 3 then ⟨[Ev.diag usageMsg], 1⟩
  else if env.openOk then
    let attrEvs := if env.attrOk then [] else [Ev.diag attrFailMsg]
    let lflag := if env.attrOk then env.attrFlags else env.junkFlags
    let text := argv.getD 2 []
    match injectLoopDelay env.accept 0 text with
    | (evs, none) => ⟨attrEvs ++ evs ++ [Ev.closeFd], 1⟩
    | (evs, some k) =>
      let crOk := env.accept k
      ⟨attrEvs ++ evs ++ [Ev.inject 13 crOk]
        ++ (if crOk then [] else [Ev.diag crFailMsg])
        ++ [Ev.sleepUs 10000]
        ++ (if lflag &&& ICANON ≠ 0 then
              [Ev.inject 10 (env.accept (k + 1))]
                ++ (if env.accept (k + 1) then [] else [Ev.diag lfFailMsg])
            else [])
        ++ [Ev.closeFd], 0⟩
  else ⟨[Ev.diag openFailMsg], 1⟩

/-- The bytes handed to the injection facility, in call order
(accepted or not). -/
def injectedOf (evs : List Ev) : List Nat :=
  evs.filterMap fun e =>
    match e with
    | Ev.inject b _ => some b
    | _ => none

/-- The bytes the injection facility accepted, in call order. -/
def acceptedOf (evs : List Ev) : List Nat :=
  evs.filterMap fun e =>
    match e with
    | Ev.inject b true => some b
    | _ => none

/-! ### Loop characterisation lemmas -/

theorem injectLoop_ok (acc : Nat → Bool) (k : Nat) (bs : List Nat)
    (h : ∀ i < bs.length, acc (k + i) = true) :
    injectLoop acc k bs = (bs.map fun b => Ev.inject b true, some (k + bs.length)) := by
  induction bs generalizing k with
  | nil => simp [injectLoop]
  | cons b rest ih =>
    have hb : acc k = true := by simpa using h 0 (by simp)
    have ih' := ih (k + 1) (fun i hi => by
      have := h (i + 1) (by simpa using Nat.succ_lt_succ hi)
      simpa [Nat.add_assoc, Nat.add_comm 1 i] using this)
    simp [injectLoop, hb, ih']
    omega

theorem injectLoop_fail (acc : Nat → Bool) (k : Nat) (bs : List Nat) (i : Nat)
    (hi : i < bs.length) (hok : ∀ j < i, acc (k + j) = true)
    (hfail : acc (k + i) = false) :
    injectLoop acc k bs =
      ((bs.take i).map (fun b => Ev.inject b true)
        ++ [Ev.inject (bs.get ⟨i, hi⟩) false, Ev.diag injFailMsg], none) := by
  induction bs generalizing k i with
  | nil => simp at hi
  | cons b rest ih =>
    cases i with
    | zero =>
      have hb : acc k = false := by simpa using hfail
      simp [injectLoop, hb]
    | succ j =>
      have hb : acc k = true := by simpa using hok 0 (Nat.succ_pos j)
      have ih' := ih (k + 1) j (Nat.lt_of_succ_lt_succ hi) (fun m hm => by
        have := hok (m + 1) (Nat.succ_lt_succ hm)
        simpa [Nat.add_assoc, Nat.add_comm 1 m] using this) (by
        simpa [Nat.add_assoc, Nat.add_comm 1 j] using hfail)
      simp [injectLoop, hb, ih']

theorem injectLoopDelay_ok (acc : Nat → Bool) (k : Nat) (bs : List Nat)
    (h : ∀ i < bs.length, acc (k + i) = true) :
    injectLoopDelay acc k bs =
      (bs.flatMap fun b => [Ev.inject b true, Ev.sleepUs 1000], some (k + bs.length)) := by
  induction bs generalizing k with
  | nil => simp [injectLoopDelay]
  | cons b rest ih =>
    have hb : acc k = true := by simpa using h 0 (by simp)
    have ih' := ih (k + 1) (fun i hi => by
      have := h (i + 1) (by simpa using Nat.succ_lt_succ hi)
      simpa [Nat.add_assoc, Nat.add_comm 1 i] using this)
    simp [injectLoopDelay, hb, ih']
    omega

theorem injectLoopDelay_fail (acc : Nat → Bool) (k : Nat) (bs : List Nat) (i : Nat)
    (hi : i < bs.length) (hok : ∀ j < i, acc (k + j) = true)
    (hfail : acc (k + i) = false) :
    injectLoopDelay acc k bs =
      ((bs.take i).flatMap (fun b => [Ev.inject b true, Ev.sleepUs 1000])
        ++ [Ev.inject (bs.get ⟨i, hi⟩) false, Ev.diag injFailMsg], none) := by
  induction bs generalizing k i with
  | nil => simp at hi
  | cons b rest ih =>
    cases i with
    | zero =>
      have hb : acc k = false := by simpa using hfail
      simp [injectLoopDelay, hb]
    | succ j =>
      have hb : acc k = true := by simpa using hok 0 (Nat.succ_pos j)
      have ih' := ih (k + 1) j (Nat.lt_of_succ_lt_succ hi) (fun m hm => by
        have := hok (m + 1) (Nat.succ_lt_succ hm)
        simpa [Nat.add_assoc, Nat.add_comm 1 m] using this) (by
        simpa [Nat.add_assoc, Nat.add_comm 1 j] using hfail)
      simp [injectLoopDelay, hb, ih']

/-- Among the indices `< n` rejected by `acc` there is a least one. -/
theorem exists_least_reject (acc : Nat → Bool) (n : Nat)
    (h : ¬ ∀ i < n, acc i = true) :
    ∃ i, i < n ∧ acc i = false ∧ ∀ j < i, acc j = true := by
  push_neg at h
  obtain ⟨i, hi, hfi⟩ := h
  have hex : ∃ m, acc m = false := ⟨i, by simpa using hfi⟩
  refine ⟨Nat.find hex, ?_, Nat.find_spec hex, ?_⟩
  · exact lt_of_le_of_lt (Nat.find_min' hex (by simpa using hfi)) hi
  · intro j hj
    have := Nat.find_min hex hj
    simpa using this

/-! ### Observation lemmas -/

theorem injectedOf_append (a b : List Ev) :
    injectedOf (a ++ b) = injectedOf a ++ injectedOf b := by
  simp [injectedOf]

theorem acceptedOf_append (a b : List Ev) :
    acceptedOf (a ++ b) = acceptedOf a ++ acceptedOf b := by
  simp [acceptedOf]

theorem injectedOf_mapInj (bs : List Nat) :
    injectedOf (bs.map fun b => Ev.inject b true) = bs := by
  induction bs with
  | nil => simp [injectedOf]
  | cons b rest ih => simpa [injectedOf] using ih

theorem acceptedOf_mapInj (bs : List Nat) :
    acceptedOf (bs.map fun b => Ev.inject b true) = bs := by
  induction bs with
  | nil => simp [acceptedOf]
  | cons b rest ih => simpa [acceptedOf] using ih

theorem injectedOf_bindInj (bs : List Nat) :
    injectedOf (bs.flatMap fun b => [Ev.inject b true, Ev.sleepUs 1000]) = bs := by
  induction bs with
  | nil => simp [injectedOf]
  | cons b rest ih =>
    simp only [List.flatMap_cons, injectedOf_append]
    simpa [injectedOf] using ih

theorem acceptedOf_bindInj (bs : List Nat) :
    acceptedOf (bs.flatMap fun b => [Ev.inject b true, Ev.sleepUs 1000]) = bs := by
  induction bs with
  | nil => simp [acceptedOf]
  | cons b rest ih =>
    simp only [List.flatMap_cons, acceptedOf_append]
    simpa [acceptedOf] using ih

/-! ### Whole-run trace lemmas -/

theorem getLast?_snoc (l : List Ev) (a : Ev) : (l ++ [a]).getLast? = some a := by
  rw [List.getLast?_append_cons]
  rfl

theorem getLast?_append_close (l₁ l₂ : List Ev)
    (h : l₂.getLast? = some Ev.closeFd) :
    (l₁ ++ l₂).getLast? = some Ev.closeFd := by
  rw [List.getLast?_append_of_ne_nil l₁ (by
    intro hnil
    rw [hnil] at h
    simp at h)]
  exact h

theorem sendKeys_run (env : Env) (t d p : List Nat) (hopen : env.openOk = true)
    (hacc : ∀ i < p.length, env.accept i = true) :
    sendKeys env [t, d, p] =
      ⟨(p.map fun b => Ev.inject b true)
        ++ [Ev.inject 13 (env.accept p.length)]
        ++ (if env.accept p.length then [] else [Ev.diag crFailMsg])
        ++ [Ev.inject 10 (env.accept (p.length + 1))]
        ++ (if env.accept (p.length + 1) then [] else [Ev.diag lfFailMsg])
        ++ [Ev.closeFd], 0⟩ := by
  have hl : injectLoop env.accept 0 p =
      (p.map fun b => Ev.inject b true, some p.length) := by
    simpa using injectLoop_ok env.accept 0 p (by simpa using hacc)
  simp [sendKeys, hopen, hl, List.getD]

theorem sendKeys_abort (env : Env) (t d p : List Nat) (i : Nat)
    (hopen : env.openOk = true) (hi : i < p.length)
    (hok : ∀ j < i, env.accept j = true) (hfail : env.accept i = false) :
    sendKeys env [t, d, p] =
      ⟨((p.take i).map fun b => Ev.inject b true)
        ++ [Ev.inject (p.get ⟨i, hi⟩) false, Ev.diag injFailMsg, Ev.closeFd], 1⟩ := by
  have hl := injectLoop_fail env.accept 0 p i hi (by simpa using hok)
    (by simpa using hfail)
  simp [sendKeys, hopen, hl, List.getD]

theorem sendKeysRaw_run (env : Env) (t d p : List Nat) (hopen : env.openOk = true)
    (hacc : ∀ i < p.length, env.accept i = true) :
    sendKeysRaw env [t, d, p] =
      if env.accept p.length then
        ⟨(p.map fun b => Ev.inject b true) ++ [Ev.inject 13 true, Ev.closeFd], 0⟩
      else
        ⟨(p.map fun b => Ev.inject b true)
          ++ [Ev.inject 13 false, Ev.diag rawCrFailMsg, Ev.closeFd], 1⟩ := by
  have hl : injectLoop env.accept 0 p =
      (p.map fun b => Ev.inject b true, some p.length) := by
    simpa using injectLoop_ok env.accept 0 p (by simpa using hacc)
  cases hcr : env.accept p.length <;>
    simp [sendKeysRaw, hopen, hl, hcr, List.getD]

theorem sendKeysRaw_abort (env : Env) (t d p : List Nat) (i : Nat)
    (hopen : env.openOk = true) (hi : i < p.length)
    (hok : ∀ j < i, env.accept j = true) (hfail : env.accept i = false) :
    sendKeysRaw env [t, d, p] =
      ⟨((p.take i).map fun b => Ev.inject b true)
        ++ [Ev.inject (p.get ⟨i, hi⟩) false, Ev.diag injFailMsg, Ev.closeFd], 1⟩ := by
  have hl := injectLoop_fail env.accept 0 p i hi (by simpa using hok)
    (by simpa using hfail)
  simp [sendKeysRaw, hopen, hl, List.getD]

theorem sendKeysNoEnter_run3 (env : Env) (t d p : List Nat)
    (hopen : env.openOk = true)
    (hacc : ∀ i < p.length, env.accept i = true) :
    sendKeysNoEnter env [t, d, p] =
      ⟨(p.map fun b => Ev.inject b true) ++ [Ev.closeFd], 0⟩ := by
  have hl : injectLoop env.accept 0 p =
      (p.map fun b => Ev.inject b true, some p.length) := by
    simpa using injectLoop_ok env.accept 0 p (by simpa using hacc)
  simp [sendKeysNoEnter, hopen, hl, List.getD]

theorem sendKeysNoEnter_run4 (env : Env) (t d p tok : List Nat)
    (hopen : env.openOk = true)
    (hacc : ∀ i < p.length, env.accept i = true) :
    sendKeysNoEnter env [t, d, p, tok] =
      if tok = enterTok then
        ⟨(p.map fun b => Ev.inject b true)
          ++ [Ev.inject 13 (env.accept p.length)]
          ++ (if env.accept p.length then [] else [Ev.diag crFailMsg])
          ++ [Ev.inject 10 (env.accept (p.length + 1))]
          ++ (if env.accept (p.length + 1) then [] else [Ev.diag lfFailMsg])
          ++ [Ev.closeFd], 0⟩
      else ⟨(p.map fun b => Ev.inject b true) ++ [Ev.closeFd], 0⟩ := by
  have hl : injectLoop env.accept 0 p =
      (p.map fun b => Ev.inject b true, some p.length) := by
    simpa using injectLoop_ok env.accept 0 p (by simpa using hacc)
  by_cases htok : tok = enterTok <;>
    simp [sendKeysNoEnter, hopen, hl, htok, List.getD]

theorem sendKeysPty_run (env : Env) (t d p : List Nat)
    (hopen : env.openOk = true)
    (hacc : ∀ i < p.length, env.accept i = true) :
    sendKeysPty env [t, d, p] =
      ⟨(if env.attrOk then [] else [Ev.diag attrFailMsg])
        ++ (p.flatMap fun b => [Ev.inject b true, Ev.sleepUs 1000])
        ++ [Ev.inject 13 (env.accept p.length)]
        ++ (if env.accept p.length then [] else [Ev.diag crFailMsg])
        ++ [Ev.sleepUs 10000]
        ++ (if (if env.attrOk then env.attrFlags else env.junkFlags) &&& ICANON ≠ 0
            then
              [Ev.inject 10 (env.accept (p.length + 1))]
                ++ (if env.accept (p.length + 1) then [] else [Ev.diag lfFailMsg])
            else [])
        ++ [Ev.closeFd], 0⟩ := by
  have hl : injectLoopDelay env.accept 0 p =
      (p.flatMap fun b => [Ev.inject b true, Ev.sleepUs 1000], some p.length) := by
    simpa using injectLoopDelay_ok env.accept 0 p (by simpa using hacc)
  simp [sendKeysPty, hopen, hl, List.getD]

theorem sendKeysPty_abort (env : Env) (t d p : List Nat) (i : Nat)
    (hopen : env.openOk = true) (hi : i < p.length)
    (hok : ∀ j < i, env.accept j = true) (hfail : env.accept i = false) :
    sendKeysPty env [t, d, p] =
      ⟨(if env.attrOk then [] else [Ev.diag attrFailMsg])
        ++ ((p.take i).flatMap fun b => [Ev.inject b true, Ev.sleepUs 1000])
        ++ [Ev.inject (p.get ⟨i, hi⟩) false, Ev.diag injFailMsg, Ev.closeFd], 1⟩ := by
  have hl := injectLoopDelay_fail env.accept 0 p i hi (by simpa using hok)
    (by simpa using hfail)
  simp [sendKeysPty, hopen, hl, List.getD]

@[simp] theorem injectedOf_nil : injectedOf [] = [] := rfl

@[simp] theorem injectedOf_cons_inject (b : Nat) (ok : Bool) (evs : List Ev) :
    injectedOf (Ev.inject b ok :: evs) = b :: injectedOf evs := rfl

@[simp] theorem injectedOf_cons_sleep (n : Nat) (evs : List Ev) :
    injectedOf (Ev.sleepUs n :: evs) = injectedOf evs := rfl

@[simp] theorem injectedOf_cons_diag (s : String) (evs : List Ev) :
    injectedOf (Ev.diag s :: evs) = injectedOf evs := rfl

@[simp] theorem injectedOf_cons_close (evs : List Ev) :
    injectedOf (Ev.closeFd :: evs) = injectedOf evs := rfl

@[simp] theorem acceptedOf_nil : acceptedOf [] = [] := rfl

@[simp] theorem acceptedOf_cons_inject_true (b : Nat) (evs : List Ev) :
    acceptedOf (Ev.inject b true :: evs) = b :: acceptedOf evs := rfl

@[simp] theorem acceptedOf_cons_inject_false (b : Nat) (evs : List Ev) :
    acceptedOf (Ev.inject b false :: evs) = acceptedOf evs := rfl

@[simp] theorem acceptedOf_cons_sleep (n : Nat) (evs : List Ev) :
    acceptedOf (Ev.sleepUs n :: evs) = acceptedOf evs := rfl

@[simp] theorem acceptedOf_cons_diag (s : String) (evs : List Ev) :
    acceptedOf (Ev.diag s :: evs) = acceptedOf evs := rfl

@[simp] theorem acceptedOf_cons_close (evs : List Ev) :
    acceptedOf (Ev.closeFd :: evs) = acceptedOf evs := rfl

theorem take_succ_of_lt (p : List Nat) (i : Nat) (hi : i < p.length) :
    p.take (i + 1) = p.take i ++ [p.get ⟨i, hi⟩] := by
  rw [List.take_succ, List.getElem?_eq_getElem hi]
  simp

theorem injectedOf_take_mapInj (bs : List Nat) (i : Nat) :
    injectedOf (List.take i (bs.map fun b => Ev.inject b true)) = bs.take i := by
  rw [← List.map_take, injectedOf_mapInj]

theorem acceptedOf_take_mapInj (bs : List Nat) (i : Nat) :
    acceptedOf (List.take i (bs.map fun b => Ev.inject b true)) = bs.take i := by
  rw [← List.map_take, acceptedOf_mapInj]

/-! ### Claim C1 -/

/-- C1 (counterexample): in `send-keys-raw.c` the equivalence "exit 0 iff
every payload byte accepted" is broken by a rejected CR framing byte: with
payload `"x"` and a kernel accepting only the first `ioctl`, every payload
byte is accepted (the accepted bytes are exactly the payload) yet the
process exits 1. -/
theorem raw_payload_accepted_exit_nonzero_cex :
    acceptedOf (sendKeysRaw ⟨true, true, 0, 0, fun k => k == 0⟩
        [[], [], [120]]).events = [120]
  ∧ (sendKeysRaw ⟨true, true, 0, 0, fun k => k == 0⟩ [[], [], [120]]).exit = 1 :=
  ⟨rfl, rfl⟩

/-- C1 (amended): for a well-formed argument list and a successful open, the
exit status is 0 iff every payload byte was accepted by the kernel — except
in the strict raw variant, where exit 0 additionally requires the CR framing
byte to be accepted. -/
theorem exit_zero_iff_payload_accepted (env : Env) (t d p : List Nat)
    (hopen : env.openOk = true) :
    ((sendKeys env [t, d, p]).exit = 0 ↔ ∀ i < p.length, env.accept i = true)
  ∧ ((sendKeysRaw env [t, d, p]).exit = 0 ↔
      ((∀ i < p.length, env.accept i = true) ∧ env.accept p.length = true)) := by
  constructor
  · constructor
    · intro h0
      by_contra hno
      obtain ⟨i, hi, hf, hmin⟩ := exists_least_reject env.accept p.length hno
      rw [sendKeys_abort env t d p i hopen hi hmin hf] at h0
      simp at h0
    · intro hacc
      rw [sendKeys_run env t d p hopen hacc]
  · constructor
    · intro h0
      have hacc : ∀ i < p.length, env.accept i = true := by
        by_contra hno
        obtain ⟨i, hi, hf, hmin⟩ := exists_least_reject env.accept p.length hno
        rw [sendKeysRaw_abort env t d p i hopen hi hmin hf] at h0
        simp at h0
      refine ⟨hacc, ?_⟩
      rw [sendKeysRaw_run env t d p hopen hacc] at h0
      cases hcr : env.accept p.length
      · rw [hcr] at h0
        simp at h0
      · rfl
    · rintro ⟨hacc, hcr⟩
      rw [sendKeysRaw_run env t d p hopen hacc, hcr]
      simp

/-- C1 (witness): a fully accepting kernel run of `send-keys.c` exits 0. -/
theorem exit_zero_iff_payload_accepted_witness :
    (sendKeys ⟨true, true, 0, 0, fun _ => true⟩ [[], [], [104]]).exit = 0 :=
  (exit_zero_iff_payload_accepted ⟨true, true, 0, 0, fun _ => true⟩
    [] [] [104] rfl).1.mpr (fun _ _ => rfl)

/-! ### Claim C2 -/

/-- C2: in `send-keys.c` and `send-keys-pty.c`, if the injection of the
`i`-th payload byte fails (earlier bytes accepted), then the bytes handed to
the facility are exactly the first `i + 1` payload bytes (nothing after
index `i` is injected), the accepted — delivered, never retracted — bytes
are exactly the first `i`, a diagnostic naming the failing operation is
emitted, the handle is closed last, and the exit status is nonzero. -/
theorem per_byte_failure_policy (env : Env) (t d p : List Nat) (i : Nat)
    (hopen : env.openOk = true) (hi : i < p.length)
    (hok : ∀ j < i, env.accept j = true) (hfail : env.accept i = false) :
    ((sendKeys env [t, d, p]).exit = 1
      ∧ injectedOf (sendKeys env [t, d, p]).events = p.take (i + 1)
      ∧ acceptedOf (sendKeys env [t, d, p]).events = p.take i
      ∧ Ev.diag injFailMsg ∈ (sendKeys env [t, d, p]).events
      ∧ ((sendKeys env [t, d, p]).events).getLast? = some Ev.closeFd)
  ∧ ((sendKeysPty env [t, d, p]).exit = 1
      ∧ injectedOf (sendKeysPty env [t, d, p]).events = p.take (i + 1)
      ∧ acceptedOf (sendKeysPty env [t, d, p]).events = p.take i
      ∧ Ev.diag injFailMsg ∈ (sendKeysPty env [t, d, p]).events
      ∧ ((sendKeysPty env [t, d, p]).events).getLast? = some Ev.closeFd) := by
  rw [sendKeys_abort env t d p i hopen hi hok hfail,
    sendKeysPty_abort env t d p i hopen hi hok hfail]
  refine ⟨⟨rfl, ?_, ?_, ?_, ?_⟩, ⟨rfl, ?_, ?_, ?_, ?_⟩⟩
  · rw [take_succ_of_lt p i hi]
    simp [injectedOf_append, injectedOf_mapInj, injectedOf_take_mapInj]
  · simp [acceptedOf_append, acceptedOf_mapInj, acceptedOf_take_mapInj]
  · simp
  · rw [List.getLast?_append_cons]
    rfl
  · rw [take_succ_of_lt p i hi]
    cases hat : env.attrOk <;>
      simp [injectedOf_append, injectedOf_bindInj]
  · cases hat : env.attrOk <;>
      simp [acceptedOf_append, acceptedOf_bindInj]
  · simp
  · apply getLast?_append_close
    rfl

/-- C2 (witness): payload `"hi"` with the second `ioctl` rejected. -/
theorem per_byte_failure_policy_witness :
    ((sendKeys ⟨true, true, 0, 0, fun k => k == 0⟩ [[], [], [104, 105]]).exit = 1
      ∧ injectedOf (sendKeys ⟨true, true, 0, 0, fun k => k == 0⟩
          [[], [], [104, 105]]).events = ([104, 105] : List Nat).take 2
      ∧ acceptedOf (sendKeys ⟨true, true, 0, 0, fun k => k == 0⟩
          [[], [], [104, 105]]).events = ([104, 105] : List Nat).take 1
      ∧ Ev.diag injFailMsg ∈ (sendKeys ⟨true, true, 0, 0, fun k => k == 0⟩
          [[], [], [104, 105]]).events
      ∧ ((sendKeys ⟨true, true, 0, 0, fun k => k == 0⟩
          [[], [], [104, 105]]).events).getLast? = some Ev.closeFd)
  ∧ ((sendKeysPty ⟨true, true, 0, 0, fun k => k == 0⟩ [[], [], [104, 105]]).exit = 1
      ∧ injectedOf (sendKeysPty ⟨true, true, 0, 0, fun k => k == 0⟩
          [[], [], [104, 105]]).events = ([104, 105] : List Nat).take 2
      ∧ acceptedOf (sendKeysPty ⟨true, true, 0, 0, fun k => k == 0⟩
          [[], [], [104, 105]]).events = ([104, 105] : List Nat).take 1
      ∧ Ev.diag injFailMsg ∈ (sendKeysPty ⟨true, true, 0, 0, fun k => k == 0⟩
          [[], [], [104, 105]]).events
      ∧ ((sendKeysPty ⟨true, true, 0, 0, fun k => k == 0⟩
          [[], [], [104, 105]]).events).getLast? = some Ev.closeFd) :=
  per_byte_failure_policy ⟨true, true, 0, 0, fun k => k == 0⟩ [] [] [104, 105] 1
    rfl (by decide) (by decide) rfl

/-! ### Claim C3 -/

/-- C3 (counterexample): `send-keys-no-enter.c` does not validate the
eol-token: invoked with the unrecognized fourth argument `"foo"` and payload
`"h"`, it emits no usage message, injects the payload, and exits 0 — not the
usage-plus-nonzero-exit the claim requires. -/
theorem unrecognized_token_no_usage_cex :
    sendKeysNoEnter ⟨true, true, 0, 0, fun _ => true⟩
        [[], [], [104], [102, 111, 111]]
      = ⟨[Ev.inject 104 true, Ev.closeFd], 0⟩ := rfl

/-- C3 (amended): in `send-keys-no-enter.c` a fourth argument that is not
`"enter"` (so also any unrecognized token, and `"none"`) is silently treated
like an absent token — identical trace and exit status, no usage message;
only a wrong argument count (fewer than 2 or more than 3 positional
arguments) produces the usage diagnostic and an unsuccessful exit. -/
theorem unrecognized_token_ignored (env : Env) (t d p tok : List Nat)
    (htok : tok ≠ enterTok) :
    sendKeysNoEnter env [t, d, p, tok] = sendKeysNoEnter env [t, d, p]
  ∧ sendKeysNoEnter env [t, d] = ⟨[Ev.diag usageNoEnterMsg], 1⟩
  ∧ sendKeysNoEnter env [t, d, p, tok, t] = ⟨[Ev.diag usageNoEnterMsg], 1⟩ := by
  refine ⟨?_, rfl, rfl⟩
  cases hopen : env.openOk
  · simp [sendKeysNoEnter, hopen]
  · rcases h : injectLoop env.accept 0 p with ⟨evs, r⟩
    cases r
    · simp [sendKeysNoEnter, hopen, h, List.getD]
    · simp [sendKeysNoEnter, hopen, h, htok, List.getD]

/-- C3 (witness): the token `"none"` is not `"enter"`, so a `"none"` run
equals the tokenless run, and 2-argument and 5-argument runs are usage
errors. -/
theorem unrecognized_token_ignored_witness :
    sendKeysNoEnter ⟨true, true, 0, 0, fun _ => true⟩
        [[], [], [104], [110, 111, 110, 101]]
      = sendKeysNoEnter ⟨true, true, 0, 0, fun _ => true⟩ [[], [], [104]]
  ∧ sendKeysNoEnter ⟨true, true, 0, 0, fun _ => true⟩ [[], []]
      = ⟨[Ev.diag usageNoEnterMsg], 1⟩
  ∧ sendKeysNoEnter ⟨true, true, 0, 0, fun _ => true⟩
        [[], [], [104], [110, 111, 110, 101], []]
      = ⟨[Ev.diag usageNoEnterMsg], 1⟩ :=
  unrecognized_token_ignored ⟨true, true, 0, 0, fun _ => true⟩
    [] [] [104] [110, 111, 110, 101] (by decide)

/-! ### Claim C4 -/

/-- C4 (code bug): after a failed `tcgetattr`, `send-keys-pty.c` does not
behave as if the terminal were non-canonical: it consults the uninitialised
`struct termios`, so when the stale `c_lflag` value happens to have the
`ICANON` bit set (here stale value 2) the LF supplement IS injected after
the CR, contradicting the specified fallback.  (Exit status 0 and the
diagnostic do match the claim.) -/
theorem tcgetattr_failure_reads_stale_flags :
    sendKeysPty ⟨true, false, 0, 2, fun _ => true⟩ [[], [], [104]] =
      ⟨[Ev.diag attrFailMsg, Ev.inject 104 true, Ev.sleepUs 1000,
        Ev.inject 13 true, Ev.sleepUs 10000, Ev.inject 10 true, Ev.closeFd],
        0⟩ := rfl

/-! ### Claim C5 -/

/-- C5: on a successful run of `send-keys.c` or `send-keys-raw.c` the event
trace starts with exactly one accepted injection per payload byte, in
payload order, and the framing bytes (CR LF, resp. CR) are handed to the
facility strictly afterwards. -/
theorem payload_injected_in_order (env : Env) (t d p : List Nat)
    (hopen : env.openOk = true)
    (hacc : ∀ i < p.length, env.accept i = true) :
    (∃ rest, (sendKeys env [t, d, p]).events
        = (p.map fun b => Ev.inject b true) ++ rest
      ∧ injectedOf rest = [13, 10])
  ∧ (∃ rest, (sendKeysRaw env [t, d, p]).events
        = (p.map fun b => Ev.inject b true) ++ rest
      ∧ injectedOf rest = [13]) := by
  constructor
  · refine ⟨[Ev.inject 13 (env.accept p.length)]
      ++ (if env.accept p.length then [] else [Ev.diag crFailMsg])
      ++ [Ev.inject 10 (env.accept (p.length + 1))]
      ++ (if env.accept (p.length + 1) then [] else [Ev.diag lfFailMsg])
      ++ [Ev.closeFd], ?_, ?_⟩
    · rw [sendKeys_run env t d p hopen hacc]
      simp [List.append_assoc]
    · cases hcr : env.accept p.length <;>
        cases hlf : env.accept (p.length + 1) <;>
        simp [injectedOf_append]
  · cases hcr : env.accept p.length
    · refine ⟨[Ev.inject 13 false, Ev.diag rawCrFailMsg, Ev.closeFd], ?_, rfl⟩
      rw [sendKeysRaw_run env t d p hopen hacc, hcr]
      simp
    · refine ⟨[Ev.inject 13 true, Ev.closeFd], ?_, rfl⟩
      rw [sendKeysRaw_run env t d p hopen hacc, hcr]
      simp

/-- C5 (witness): payload `"hi"` against a fully accepting kernel. -/
theorem payload_injected_in_order_witness :
    (∃ rest, (sendKeys ⟨true, true, 0, 0, fun _ => true⟩
          [[], [], [104, 105]]).events
        = (([104, 105] : List Nat).map fun b => Ev.inject b true) ++ rest
      ∧ injectedOf rest = [13, 10])
  ∧ (∃ rest, (sendKeysRaw ⟨true, true, 0, 0, fun _ => true⟩
          [[], [], [104, 105]]).events
        = (([104, 105] : List Nat).map fun b => Ev.inject b true) ++ rest
      ∧ injectedOf rest = [13]) :=
  payload_injected_in_order ⟨true, true, 0, 0, fun _ => true⟩
    [] [] [104, 105] rfl (fun _ _ => rfl)

/-! ### Claim C6 -/

/-- C6: whenever framing applies, CR (0x0D) is handed to the facility first
and LF (0x0A) follows exactly when canonical framing is unconditional
(`send-keys.c`, or the `"enter"` token of `send-keys-no-enter.c`) or the
line-discipline snapshot has `ICANON` set; with a non-canonical snapshot
(`send-keys-pty.c`) or the raw policy (`send-keys-raw.c`) only CR is sent. -/
theorem framing_policy (env : Env) (t d p : List Nat)
    (hopen : env.openOk = true)
    (hacc : ∀ i < p.length, env.accept i = true) :
    injectedOf (sendKeys env [t, d, p]).events = p ++ [13, 10]
  ∧ injectedOf (sendKeysNoEnter env [t, d, p, enterTok]).events = p ++ [13, 10]
  ∧ injectedOf (sendKeysRaw env [t, d, p]).events = p ++ [13]
  ∧ (env.attrOk = true →
      injectedOf (sendKeysPty env [t, d, p]).events =
        p ++ (if env.attrFlags &&& ICANON ≠ 0 then [13, 10] else [13])) := by
  refine ⟨?_, ?_, ?_, ?_⟩
  · rw [sendKeys_run env t d p hopen hacc]
    cases hcr : env.accept p.length <;>
      cases hlf : env.accept (p.length + 1) <;>
      simp [injectedOf_append, injectedOf_mapInj]
  · rw [sendKeysNoEnter_run4 env t d p enterTok hopen hacc, if_pos rfl]
    cases hcr : env.accept p.length <;>
      cases hlf : env.accept (p.length + 1) <;>
      simp [injectedOf_append, injectedOf_mapInj]
  · rw [sendKeysRaw_run env t d p hopen hacc]
    by_cases hcr : env.accept p.length = true
    · rw [if_pos hcr]
      simp [injectedOf_append, injectedOf_mapInj]
    · rw [if_neg hcr]
      simp [injectedOf_append, injectedOf_mapInj]
  · intro hattr
    rw [sendKeysPty_run env t d p hopen hacc]
    by_cases hc : env.attrFlags &&& ICANON ≠ 0
    · cases hcr : env.accept p.length <;>
        cases hlf : env.accept (p.length + 1) <;>
        simp [hattr, hc, injectedOf_append, injectedOf_bindInj]
    · cases hcr : env.accept p.length <;>
        simp [hattr, hc, injectedOf_append, injectedOf_bindInj]

/-- C6 (witness): a canonical-mode snapshot (`c_lflag = 2`) with payload
`"h"` and a fully accepting kernel. -/
theorem framing_policy_witness :
    injectedOf (sendKeys ⟨true, true, 2, 0, fun _ => true⟩
        [[], [], [104]]).events = [104] ++ [13, 10]
  ∧ injectedOf (sendKeysNoEnter ⟨true, true, 2, 0, fun _ => true⟩
        [[], [], [104], enterTok]).events = [104] ++ [13, 10]
  ∧ injectedOf (sendKeysRaw ⟨true, true, 2, 0, fun _ => true⟩
        [[], [], [104]]).events = [104] ++ [13]
  ∧ ((⟨true, true, 2, 0, fun _ => true⟩ : Env).attrOk = true →
      injectedOf (sendKeysPty ⟨true, true, 2, 0, fun _ => true⟩
          [[], [], [104]]).events =
        [104] ++ (if (⟨true, true, 2, 0, fun _ => true⟩ : Env).attrFlags
            &&& ICANON ≠ 0 then [13, 10] else [13])) :=
  framing_policy ⟨true, true, 2, 0, fun _ => true⟩ [] [] [104] rfl (fun _ _ => rfl)

/-! ### Claim C7 -/

/-- C7 (counterexample): with the single-byte payload `"x"` the 1 ms
inter-byte delay of `send-keys-pty.c` runs immediately after the last (and
only) payload byte, before the CR framing — the claim says no inter-byte
delay may occur after the last payload byte. -/
theorem delay_after_last_payload_byte_cex :
    sendKeysPty ⟨true, true, 0, 0, fun _ => true⟩ [[], [], [120]] =
      ⟨[Ev.inject 120 true, Ev.sleepUs 1000, Ev.inject 13 true,
        Ev.sleepUs 10000, Ev.closeFd], 0⟩ := rfl

/-- C7 (amended): on a successful run the 1 ms delay executes after every
accepted payload byte — including after the last one, just before the CR
framing — and never before the first payload byte (the trace of the payload
phase is exactly inject-then-sleep pairs, preceded at most by the
`tcgetattr` diagnostic). -/
theorem delay_after_each_payload_byte (env : Env) (t d p : List Nat)
    (hopen : env.openOk = true)
    (hacc : ∀ i < p.length, env.accept i = true) :
    ∃ rest, (sendKeysPty env [t, d, p]).events =
        (if env.attrOk then [] else [Ev.diag attrFailMsg])
          ++ (p.flatMap fun b => [Ev.inject b true, Ev.sleepUs 1000]) ++ rest
      ∧ rest.head? = some (Ev.inject 13 (env.accept p.length)) := by
  refine ⟨[Ev.inject 13 (env.accept p.length)]
      ++ (if env.accept p.length then [] else [Ev.diag crFailMsg])
      ++ [Ev.sleepUs 10000]
      ++ (if (if env.attrOk then env.attrFlags else env.junkFlags) &&& ICANON ≠ 0
          then [Ev.inject 10 (env.accept (p.length + 1))]
            ++ (if env.accept (p.length + 1) then [] else [Ev.diag lfFailMsg])
          else [])
      ++ [Ev.closeFd], ?_, rfl⟩
  rw [sendKeysPty_run env t d p hopen hacc]
  simp [List.append_assoc]

/-- C7 (witness): payload `"hi"`, all `ioctl` calls accepted. -/
theorem delay_after_each_payload_byte_witness :
    ∃ rest, (sendKeysPty ⟨true, true, 0, 0, fun _ => true⟩
          [[], [], [104, 105]]).events =
        (if (⟨true, true, 0, 0, fun _ => true⟩ : Env).attrOk then []
          else [Ev.diag attrFailMsg])
          ++ (([104, 105] : List Nat).flatMap
              fun b => [Ev.inject b true, Ev.sleepUs 1000]) ++ rest
      ∧ rest.head? = some (Ev.inject 13
          ((⟨true, true, 0, 0, fun _ => true⟩ : Env).accept
            ([104, 105] : List Nat).length)) :=
  delay_after_each_payload_byte ⟨true, true, 0, 0, fun _ => true⟩
    [] [] [104, 105] rfl (fun _ _ => rfl)

/-! ### Claim C8 -/

theorem sendKeysNoEnter_abort3 (env : Env) (t d p : List Nat) (i : Nat)
    (hopen : env.openOk = true) (hi : i < p.length)
    (hok : ∀ j < i, env.accept j = true) (hfail : env.accept i = false) :
    sendKeysNoEnter env [t, d, p] =
      ⟨((p.take i).map fun b => Ev.inject b true)
        ++ [Ev.inject (p.get ⟨i, hi⟩) false, Ev.diag injFailMsg, Ev.closeFd], 1⟩ := by
  have hl := injectLoop_fail env.accept 0 p i hi (by simpa using hok)
    (by simpa using hfail)
  simp [sendKeysNoEnter, hopen, hl, List.getD]

theorem sendKeysNoEnter_abort4 (env : Env) (t d p tok : List Nat) (i : Nat)
    (hopen : env.openOk = true) (hi : i < p.length)
    (hok : ∀ j < i, env.accept j = true) (hfail : env.accept i = false) :
    sendKeysNoEnter env [t, d, p, tok] =
      ⟨((p.take i).map fun b => Ev.inject b true)
        ++ [Ev.inject (p.get ⟨i, hi⟩) false, Ev.diag injFailMsg, Ev.closeFd], 1⟩ := by
  have hl := injectLoop_fail env.accept 0 p i hi (by simpa using hok)
    (by simpa using hfail)
  simp [sendKeysNoEnter, hopen, hl, List.getD]

/-- C8: in every variant, whenever the open succeeded the very last
observable action of the run — on the success path and on every failure
path, including a rejected payload byte and (in the strict raw variant) a
rejected CR framing byte — is the `close` of the device handle. -/
theorem handle_released_on_every_path (env : Env) (t d p tok : List Nat)
    (hopen : env.openOk = true) :
    ((sendKeys env [t, d, p]).events).getLast? = some Ev.closeFd
  ∧ ((sendKeysRaw env [t, d, p]).events).getLast? = some Ev.closeFd
  ∧ ((sendKeysPty env [t, d, p]).events).getLast? = some Ev.closeFd
  ∧ ((sendKeysNoEnter env [t, d, p]).events).getLast? = some Ev.closeFd
  ∧ ((sendKeysNoEnter env [t, d, p, tok]).events).getLast? = some Ev.closeFd := by
  by_cases hall : ∀ i < p.length, env.accept i = true
  · refine ⟨?_, ?_, ?_, ?_, ?_⟩
    · rw [sendKeys_run env t d p hopen hall]
      exact getLast?_append_close _ _ rfl
    · rw [sendKeysRaw_run env t d p hopen hall]
      by_cases hcr : env.accept p.length = true
      · rw [if_pos hcr]
        exact getLast?_append_close _ _ rfl
      · rw [if_neg hcr]
        exact getLast?_append_close _ _ rfl
    · rw [sendKeysPty_run env t d p hopen hall]
      exact getLast?_append_close _ _ rfl
    · rw [sendKeysNoEnter_run3 env t d p hopen hall]
      exact getLast?_append_close _ _ rfl
    · rw [sendKeysNoEnter_run4 env t d p tok hopen hall]
      by_cases htok : tok = enterTok
      · rw [if_pos htok]
        exact getLast?_append_close _ _ rfl
      · rw [if_neg htok]
        exact getLast?_append_close _ _ rfl
  · obtain ⟨i, hi, hf, hmin⟩ := exists_least_reject env.accept p.length hall
    refine ⟨?_, ?_, ?_, ?_, ?_⟩
    · rw [sendKeys_abort env t d p i hopen hi hmin hf]
      exact getLast?_append_close _ _ rfl
    · rw [sendKeysRaw_abort env t d p i hopen hi hmin hf]
      exact getLast?_append_close _ _ rfl
    · rw [sendKeysPty_abort env t d p i hopen hi hmin hf]
      exact getLast?_append_close _ _ rfl
    · rw [sendKeysNoEnter_abort3 env t d p i hopen hi hmin hf]
      exact getLast?_append_close _ _ rfl
    · rw [sendKeysNoEnter_abort4 env t d p tok i hopen hi hmin hf]
      exact getLast?_append_close _ _ rfl

/-- C8 (witness): a kernel that rejects every `ioctl` still sees the handle
closed last in all five invocation shapes. -/
theorem handle_released_on_every_path_witness :
    ((sendKeys ⟨true, true, 0, 0, fun _ => false⟩ [[], [], [104]]).events).getLast?
        = some Ev.closeFd
  ∧ ((sendKeysRaw ⟨true, true, 0, 0, fun _ => false⟩ [[], [], [104]]).events).getLast?
        = some Ev.closeFd
  ∧ ((sendKeysPty ⟨true, true, 0, 0, fun _ => false⟩ [[], [], [104]]).events).getLast?
        = some Ev.closeFd
  ∧ ((sendKeysNoEnter ⟨true, true, 0, 0, fun _ => false⟩ [[], [], [104]]).events).getLast?
        = some Ev.closeFd
  ∧ ((sendKeysNoEnter ⟨true, true, 0, 0, fun _ => false⟩
        [[], [], [104], [110, 111, 110, 101]]).events).getLast? = some Ev.closeFd :=
  handle_released_on_every_path ⟨true, true, 0, 0, fun _ => false⟩
    [] [] [104] [110, 111, 110, 101] rfl

/-! ### Claim C9 -/

/-- C9: noninterference of the terminal-attribute snapshot in
`send-keys-raw.c`: two runs with the same arguments and the same kernel
responses to `open` and to each injection call produce identical traces and
exit status, whatever the attribute query returned and whether it succeeded. -/
theorem raw_attr_noninterference (env₁ env₂ : Env) (argv : List (List Nat))
    (hopen : env₁.openOk = env₂.openOk) (hacc : env₁.accept = env₂.accept) :
    sendKeysRaw env₁ argv = sendKeysRaw env₂ argv := by
  unfold sendKeysRaw
  rw [hopen, hacc]

/-- C9 (witness): two kernels differing in the attribute answer (success
with flags 7 versus failure with stale flags 2) give identical runs. -/
theorem raw_attr_noninterference_witness :
    sendKeysRaw ⟨true, true, 7, 9, fun _ => true⟩ [[], [], [104]]
      = sendKeysRaw ⟨true, false, 0, 2, fun _ => true⟩ [[], [], [104]] :=
  raw_attr_noninterference ⟨true, true, 7, 9, fun _ => true⟩
    ⟨true, false, 0, 2, fun _ => true⟩ [[], [], [104]] rfl rfl

/-! ### Claim C10 -/

/-- C10: `send-keys-no-enter.c` invoked with exactly two positional
arguments (device and payload, no eol-token) hands exactly the payload
bytes to the facility — no CR and no LF framing byte — and exits 0 when
every payload byte is accepted. -/
theorem no_token_payload_only (env : Env) (t d p : List Nat)
    (hopen : env.openOk = true)
    (hacc : ∀ i < p.length, env.accept i = true) :
    injectedOf (sendKeysNoEnter env [t, d, p]).events = p
  ∧ (sendKeysNoEnter env [t, d, p]).exit = 0 := by
  rw [sendKeysNoEnter_run3 env t d p hopen hacc]
  exact ⟨by simp [injectedOf_append, injectedOf_mapInj], rfl⟩

/-- C10 (witness): payload `"hi"`, fully accepting kernel. -/
theorem no_token_payload_only_witness :
    injectedOf (sendKeysNoEnter ⟨true, true, 0, 0, fun _ => true⟩
        [[], [], [104, 105]]).events = [104, 105]
  ∧ (sendKeysNoEnter ⟨true, true, 0, 0, fun _ => true⟩
        [[], [], [104, 105]]).exit = 0 :=
  no_token_payload_only ⟨true, true, 0, 0, fun _ => true⟩ [] [] [104, 105]
    rfl (fun _ _ => rfl)
